import Mathlib

/-!
Shallow embedding of the image auto-downloader (`main.py`) and the folder
compressor (`compress.py`).

Conventions of the embedding:
* Python strings are Lean `String`s; a value that Python may hold as `None`
  is an `Option String` (Python's truthiness test `not x` is `none` or `""`).
* The database, the network, the random generator, the clock and the disk are
  external effects; they enter as explicit parameters (a snapshot list of
  rows, per-call failure flags, a list of random draws, a timestamp, a list
  of file names in the output directory).
* Per-row processing inside a batch is abstracted by its observable outcome
  (`process_single_image` returned True, returned False, or raised); the body
  of `process_single_image` itself is embedded separately with oracles for
  the HTTP fetch and the file write.
* Log output is modelled as a trace of `Event`s covering the log lines the
  verified properties talk about; purely informational lines are elided.
-/

namespace ImgDl

/-- Python `str.strip()`: remove whitespace characters from both ends
(written at the character-list level so that terms reduce in the kernel). -/
def pyStrip (s : String) : String :=
  String.mk
    (((s.data.dropWhile Char.isWhitespace).reverse.dropWhile
        Char.isWhitespace).reverse)

/-- The character class of `re.sub(r'[\\/*?:"<>|]', '_', name)` in
`sanitize_filename` (main.py lines 188-199). -/
def isForbiddenChar (c : Char) : Bool :=
  c = '\\' || c = '/' || c = '*' || c = '?' || c = ':' || c = '"' ||
  c = '<' || c = '>' || c = '|'

/-- `re.sub(r'[\\/*?:"<>|]', '_', name)`: every character of the class is
replaced by an underscore, character for character. -/
def replaceForbidden (s : String) : String :=
  String.mk (s.data.map (fun c => if isForbiddenChar c then '_' else c))

/-- `ImageDownloader.sanitize_filename` (main.py lines 188-199).
`none` stands for Python `None`; `not name` is true for `None` and `""`. -/
def sanitize_filename (name : Option String) : String :=
  match name with
  | none => "unknown"
  | some s =>
    if s = "" then "unknown"
    else
      let replaced := replaceForbidden s
      let trimmed := pyStrip replaced
      if trimmed = "" then "unknown" else trimmed

/-- `if img_path.startswith('/'): img_path = img_path[1:]` — remove exactly
one leading separator when present. -/
def stripLeadingSlash (t : String) : String :=
  match t.data with
  | c :: rest => if c = '/' then String.mk rest else t
  | [] => t

/-- `ImageDownloader.build_image_url` (main.py lines 149-158): `none` input or
`""` input yield `none`; otherwise the path is stripped of surrounding
whitespace, one leading `/` is removed when present, and the result is
appended to the configured base URL. -/
def build_image_url (s3_base_url : String) (img_path : Option String) :
    Option String :=
  match img_path with
  | none => none
  | some p =>
    if p = "" then none
    else some (s3_base_url ++ stripLeadingSlash (pyStrip p))

/-- `urlparse(p).path` for the relative references stored in the table: the
part of the string before the first `?` (query) or `#` (fragment). -/
def urlparse_path (p : String) : String :=
  p.takeWhile (fun c => c ≠ '?' && c ≠ '#')

/-- The extension part of `os.path.splitext`: the suffix of the last path
component starting at its last dot, provided some character of the component
strictly before that dot is not itself a dot (so dot-files have no
extension); `""` otherwise. -/
def splitext_ext (p : String) : String :=
  let base := (p.splitOn "/").getLastD ""
  let rev := base.data.reverse
  if rev.any (· = '.') then
    let afterDot := rev.takeWhile (· ≠ '.')
    let stemRev := rev.drop (afterDot.length + 1)
    if stemRev.any (· ≠ '.') then String.mk ('.' :: afterDot.reverse) else ""
  else ""

/-- `ImageDownloader.extract_extension` (main.py lines 170-182): default
`"jpg"` for empty input or an extension-less path; otherwise the extension of
the URL path component, leading dot dropped, lower-cased. -/
def extract_extension (img_path : Option String) : String :=
  match img_path with
  | none => "jpg"
  | some p =>
    if p = "" then "jpg"
    else
      let path := urlparse_path p
      let ext := splitext_ext path
      if ext ≠ "" then (ext.drop 1).toLower else "jpg"

/-- The candidate file name `f"{fr_id}_{fr_nm}_{suffix}.{extension}"` of
`generate_filename`; paths are identified with file names relative to the
output directory. -/
def candidate_name (fr_id fr_nm : String) (suffix : Nat) (extension : String) :
    String :=
  fr_id ++ "_" ++ fr_nm ++ "_" ++ toString suffix ++ "." ++ extension

/-- The retry loop of `generate_filename`: try the draws in order, return the
first candidate name not present on disk, `none` when every draw collides. -/
def generate_filename_loop (fr_id fr_nm extension : String)
    (disk : List String) : List Nat → Option String
  | [] => none
  | d :: ds =>
    let filename := candidate_name fr_id fr_nm d extension
    if filename ∈ disk then generate_filename_loop fr_id fr_nm extension disk ds
    else some filename

/-- `ImageDownloader.generate_filename` (main.py lines 201-217).
`randoms` is the stream of draws of `generate_random_digits` (each in
1000..9999; the loop consumes at most `max_attempts = 100` of them),
`disk` the set of file names already present in the output directory,
`timestamp` the value of `int(time.time())` at fallback time. -/
def generate_filename (fr_id fr_nm extension : String) (randoms : List Nat)
    (disk : List String) (timestamp : Nat) : String :=
  let id' := sanitize_filename (some fr_id)
  let nm' := sanitize_filename (some fr_nm)
  match generate_filename_loop id' nm' extension disk (randoms.take 100) with
  | some f => f
  | none => candidate_name id' nm' timestamp extension

/-- One row of the `FRANCHISEE` result set: `SELECT f.FR_ID, f.FR_NM,
f.logoImageUrl as img` (identifiers already rendered as strings, as
`generate_filename` applies `str(...)` and `failed_ids` is only ever
printed). -/
structure Row where
  fr_id : String
  fr_nm : String
  img : Option String

/-- Observable result of `process_single_image`: the returned boolean, the
URL passed to `download_image` when a network call was made, and the path
written when the save succeeded. -/
structure SingleResult where
  ok : Bool
  fetchedUrl : Option String
  savedPath : Option String

/-- `ImageDownloader.process_single_image` (main.py lines 229-251).
The guard `if not image_url:` is falsy both for `None` and for the empty
string, so a `some ""` resolver result also fails the row with no network
call. `download url` is the body returned by `download_image` (`none` when
the request raised and was absorbed into a `None` return; `some bytes`
otherwise — Python then treats an empty body as falsy), `saveOk` whether
`save_image`'s file write succeeds. -/
def process_single_image (s3_base_url : String)
    (download : String → Option String) (saveOk : Bool) (randoms : List Nat)
    (disk : List String) (timestamp : Nat) (record : Row) : SingleResult :=
  match build_image_url s3_base_url record.img with
  | none => ⟨false, none, none⟩
  | some url =>
    if url = "" then ⟨false, none, none⟩
    else
      match download url with
      | none => ⟨false, some url, none⟩
      | some data =>
        if data = "" then ⟨false, some url, none⟩
        else
          let extension := extract_extension record.img
          let filepath :=
            generate_filename record.fr_id record.fr_nm extension randoms disk
              timestamp
          if saveOk then ⟨true, some url, some filepath⟩
          else ⟨false, some url, none⟩

/-- Outcome of the `process_single_image` call for one row inside the `try`
of `process_batch` (main.py lines 268-284): it returned True, returned
False, or raised an exception. -/
inductive RowOutcome where
  | success
  | failure
  | exc
deriving DecidableEq, Repr

/-- The `self.stats` record (main.py lines 38-43). -/
structure RunStats where
  total : Nat
  success : Nat
  failed : Nat
  failed_ids : List String
deriving DecidableEq, Repr

/-- `self.stats` at program start and after `stats['total'] = total_count`. -/
def initStats (total : Nat) : RunStats :=
  { total := total, success := 0, failed := 0, failed_ids := [] }

/-- The stats update of one iteration of the row loop of `process_batch`
(main.py lines 265-284): a True return increments `success`; a False return
or a caught exception increments `failed` and appends the row id. -/
def process_row (s : RunStats) (id : String) : RowOutcome → RunStats
  | .success => { s with success := s.success + 1 }
  | .failure =>
      { s with failed := s.failed + 1, failed_ids := s.failed_ids ++ [id] }
  | .exc =>
      { s with failed := s.failed + 1, failed_ids := s.failed_ids ++ [id] }

/-- The whole row loop of `process_batch` over the fetched records. -/
def process_batch_rows (s : RunStats) (records : List (String × RowOutcome)) :
    RunStats :=
  records.foldl (fun st r => process_row st r.1 r.2) s

/-- Every intermediate `self.stats` value of the row loop, in order. -/
def process_rows_trace (s : RunStats) :
    List (String × RowOutcome) → List RunStats
  | [] => []
  | r :: rs =>
    process_row s r.1 r.2 :: process_rows_trace (process_row s r.1 r.2) rs

/-- Snapshot model of the database during one run: the filtered `FRANCHISEE`
result set as a fixed list (each row paired with its processing outcome),
plus per-call failure switches for the count query and for the page query at
a given offset (an exception inside `get_total_count` respectively
`fetch_franchisee_data`). -/
structure DbModel where
  rows : List (String × RowOutcome)
  countFails : Bool
  fetchFails : Nat → Bool

/-- The log lines and query calls the verified properties mention; purely
informational log lines are elided. -/
inductive Event where
  | connectFail
  | connectOk
  | countError
  | logTotal (n : Nat)
  | noData
  | fetchPage (offset : Nat)
  | fetchError (offset : Nat)
  | rowError (id : String)
  | batchDone (num : Nat)
  | interrupted
  | unexpectedError
  | summary (total success failed : Nat)
  | connClosed
  | tunnelClosed
deriving DecidableEq, Repr

/-- `ImageDownloader.get_total_count` (main.py lines 113-129): the count of
the filtered table, or — when the query raises — an error log line and the
return value 0. -/
def get_total_count (db : DbModel) : Nat × List Event :=
  if db.countFails then (0, [Event.countError]) else (db.rows.length, [])

/-- `ImageDownloader.fetch_franchisee_data` (main.py lines 131-147):
`LIMIT offset, limit` over the stable filtered result set, or — when the
query raises — an empty list. -/
def fetch_franchisee_data (db : DbModel) (offset limit : Nat) :
    List (String × RowOutcome) :=
  if db.fetchFails offset then [] else (db.rows.drop offset).take limit

/-- Externally injected abnormal termination: none, a `KeyboardInterrupt`,
or an unexpected exception, surfacing when batch number `batch` is about to
be processed. -/
inductive Interrupt where
  | noIntr
  | kbAt (batch : Nat)
  | errAt (batch : Nat)
deriving DecidableEq, Repr

def Interrupt.firesAt : Interrupt → Nat → Bool
  | .noIntr, _ => false
  | .kbAt k, b => k = b
  | .errAt k, b => k = b

/-- Which `except` arm of `run` catches the abnormal termination. -/
inductive StopCause where
  | completed
  | keyboard
  | unexpected
deriving DecidableEq, Repr

def Interrupt.stopCause : Interrupt → StopCause
  | .noIntr => .completed
  | .kbAt _ => .keyboard
  | .errAt _ => .unexpected

/-- `ImageDownloader.process_batch` (main.py lines 253-286) for batch number
`batchNum` (1-based): fetch the page at `offset = (batchNum - 1) * bsz`,
then run the row loop; a failing page query is logged and yields an empty
page; an empty page is logged as a warning and skips the completion line. -/
def process_batch (db : DbModel) (bsz : Nat) (s : RunStats) (batchNum : Nat) :
    RunStats × List Event :=
  let offset := (batchNum - 1) * bsz
  let records := fetch_franchisee_data db offset bsz
  let fev :=
    if db.fetchFails offset then [Event.fetchPage offset, Event.fetchError offset]
    else [Event.fetchPage offset]
  (process_batch_rows s records,
    fev ++
      records.filterMap
        (fun r =>
          if r.2 = RowOutcome.exc then some (Event.rowError r.1) else none) ++
      (if records.isEmpty then [] else [Event.batchDone batchNum]))

/-- The batch loop of `run` (main.py lines 311-313) over a list of batch
numbers, cut short when the injected interrupt fires. -/
def run_batches (db : DbModel) (bsz : Nat) (intr : Interrupt) :
    List Nat → RunStats → RunStats × List Event × StopCause
  | [], s => (s, [], StopCause.completed)
  | b :: rest, s =>
    if intr.firesAt b then (s, [], intr.stopCause)
    else
      let p := process_batch db bsz s b
      let q := run_batches db bsz intr rest p.1
      (q.1, p.2 ++ q.2.1, q.2.2)

/-- `total_batches = (total_count + self.batch_size - 1) // self.batch_size`
(main.py line 308). -/
def total_batches (total bsz : Nat) : Nat := (total + bsz - 1) / bsz

/-- The environment of one `run` call: whether `connect_db` succeeds,
whether an SSH tunnel is in use, the database snapshot, the configured
batch size, and the injected abnormal termination. -/
structure RunEnv where
  connectOk : Bool
  useTunnel : Bool
  db : DbModel
  batch_size : Nat
  intr : Interrupt

/-- `ImageDownloader.close_db` (main.py lines 103-111) with an established
connection: release the connection, then the tunnel when one is open. -/
def close_db_events (useTunnel : Bool) : List Event :=
  Event.connClosed :: (if useTunnel then [Event.tunnelClosed] else [])

/-- `ImageDownloader.run` (main.py lines 288-338): on connection failure,
abort with no cleanup (nothing was opened into `self.connection`); otherwise
count, early-return on a zero total, else iterate the batches, emit the
summary only when the try block ran to its end, map `KeyboardInterrupt` and
unexpected exceptions to their log lines, and always run the `finally`
cleanup. -/
def run (env : RunEnv) : RunStats × List Event :=
  if env.connectOk = false then (initStats 0, [Event.connectFail])
  else
    let cnt := (get_total_count env.db).1
    let cev := (get_total_count env.db).2
    let s0 := initStats cnt
    if cnt = 0 then
      (s0,
        Event.connectOk :: cev ++ [Event.logTotal cnt, Event.noData] ++
          close_db_events env.useTunnel)
    else
      let r :=
        run_batches env.db env.batch_size env.intr
          (List.range' 1 (total_batches cnt env.batch_size)) s0
      let tailEv :=
        match r.2.2 with
        | .completed => [Event.summary r.1.total r.1.success r.1.failed]
        | .keyboard => [Event.interrupted]
        | .unexpected => [Event.unexpectedError]
      (r.1,
        Event.connectOk :: cev ++ [Event.logTotal cnt] ++ r.2.1 ++ tailEv ++
          close_db_events env.useTunnel)

/-- The batch-loop part of the `self.stats` trace: every intermediate stats
value, row by row, across the executed batches. -/
def batches_trace (db : DbModel) (bsz : Nat) (intr : Interrupt) :
    List Nat → RunStats → List RunStats
  | [], _ => []
  | b :: rest, s =>
    if intr.firesAt b then []
    else
      let records := fetch_franchisee_data db ((b - 1) * bsz) bsz
      process_rows_trace s records ++
        batches_trace db bsz intr rest (process_batch_rows s records)

/-- Every value `self.stats` takes during `run`, in order. -/
def run_trace (env : RunEnv) : List RunStats :=
  if env.connectOk = false then [initStats 0]
  else
    let cnt := (get_total_count env.db).1
    let s0 := initStats cnt
    if cnt = 0 then [s0]
    else
      s0 ::
        batches_trace env.db env.batch_size env.intr
          (List.range' 1 (total_batches cnt env.batch_size)) s0

/-- `ImageCompressor.create_zip` (compress.py lines 74-147); state is the
list of file names in the destination directory. `sourceExists` is the
`self.source_dir.exists()` guard; `writeOk` says whether the archive-writing
`try` block runs to its end without an exception; `diskOnFailure` is the
directory contents at the moment an exception propagates (the partially
written archive may or may not be present, e.g. when opening the file
itself failed). On success the archive file is present; on failure the
handler unlinks `output_path` when it exists and returns `None`. -/
def create_zip (sourceExists : Bool) (disk : List String) (output : String)
    (writeOk : Bool) (diskOnFailure : List String) :
    Option String × List String :=
  if sourceExists = false then (none, disk)
  else if writeOk then
    (some output, output :: disk.filter (fun f => decide (¬ f = output)))
  else
    (none,
      if output ∈ diskOnFailure then
        diskOnFailure.filter (fun f => decide (¬ f = output))
      else diskOnFailure)

/-- `ImageCompressor.create_tar_gz` (compress.py lines 149-215): identical
control flow to `create_zip` — guard on the source directory, write the
archive, and on any exception unlink the partial output when it exists and
return `None`. -/
def create_tar_gz (sourceExists : Bool) (disk : List String) (output : String)
    (writeOk : Bool) (diskOnFailure : List String) :
    Option String × List String :=
  if sourceExists = false then (none, disk)
  else if writeOk then
    (some output, output :: disk.filter (fun f => decide (¬ f = output)))
  else
    (none,
      if output ∈ diskOnFailure then
        diskOnFailure.filter (fun f => decide (¬ f = output))
      else diskOnFailure)

theorem str_append_empty (s : String) : s ++ "" = s := by
  cases s with
  | mk d =>
    show String.mk (d ++ []) = String.mk d
    rw [List.append_nil]

theorem generate_filename_loop_some_not_mem (a b e : String)
    (disk : List String) (ds : List Nat) (f : String)
    (h : generate_filename_loop a b e disk ds = some f) : f ∉ disk := by
  induction ds with
  | nil => simp [generate_filename_loop] at h
  | cons d ds ih =>
    simp only [generate_filename_loop] at h
    split at h
    · exact ih h
    · cases h
      assumption

theorem generate_filename_loop_eq_none (a b e : String) (disk : List String)
    (ds : List Nat) :
    generate_filename_loop a b e disk ds = none ↔
      ∀ d ∈ ds, candidate_name a b d e ∈ disk := by
  induction ds with
  | nil => simp [generate_filename_loop]
  | cons d ds ih =>
    simp only [generate_filename_loop]
    split
    · simp [*]
    · simp [*]

/-- C7: `build_image_url` returns `none` exactly on `None`/empty input;
otherwise it strips surrounding whitespace, removes one leading
separator when present, and concatenates onto the base URL; the two
spec examples with base `"https://cdn.x/"` both give
`"https://cdn.x/a/b.png"`. -/
theorem build_image_url_spec :
    (∀ base : String, build_image_url base none = none) ∧
    (∀ base : String, build_image_url base (some "") = none) ∧
    build_image_url "https://cdn.x/" (some "/a/b.png") =
      some "https://cdn.x/a/b.png" ∧
    build_image_url "https://cdn.x/" (some "a/b.png") =
      some "https://cdn.x/a/b.png" ∧
    (∀ (base p : String) (rest : List Char), p ≠ "" →
      (pyStrip p).data = '/' :: rest →
      build_image_url base (some p) = some (base ++ String.mk rest)) ∧
    (∀ (base p : String), p ≠ "" → (pyStrip p).data.head? ≠ some '/' →
      build_image_url base (some p) = some (base ++ pyStrip p)) := by
  refine ⟨fun _ => rfl, fun _ => rfl, by decide, by decide, ?_, ?_⟩
  · intro base p rest hp h
    simp [build_image_url, if_neg hp, stripLeadingSlash, h]
  · intro base p hp h
    simp only [build_image_url, if_neg hp, stripLeadingSlash]
    rcases hd : (pyStrip p).data with _ | ⟨c, cs⟩
    · rfl
    · have hc : c ≠ '/' := by
        intro hc
        apply h
        rw [hd, hc]
        rfl
      simp [hc]

/-- C8: `sanitize_filename` maps `None` and `""` to `"unknown"`; otherwise it
replaces every character of `\\ / * ? : " < > |` by `_` character for
character (the length is preserved and every position is either kept or
mapped to `_`), trims surrounding whitespace, and falls back to `"unknown"`
exactly when the result is empty. -/
theorem sanitize_filename_spec :
    sanitize_filename none = "unknown" ∧
    sanitize_filename (some "") = "unknown" ∧
    (∀ s : String, (replaceForbidden s).data.length = s.data.length) ∧
    (∀ (s : String) (i : Nat) (h : i < (replaceForbidden s).data.length)
        (h' : i < s.data.length),
      (replaceForbidden s).data.get ⟨i, h⟩ =
        if isForbiddenChar (s.data.get ⟨i, h'⟩) then '_'
        else s.data.get ⟨i, h'⟩) ∧
    (∀ s : String, s ≠ "" → pyStrip (replaceForbidden s) = "" →
      sanitize_filename (some s) = "unknown") ∧
    (∀ s : String, s ≠ "" → pyStrip (replaceForbidden s) ≠ "" →
      sanitize_filename (some s) = pyStrip (replaceForbidden s)) := by
  refine ⟨rfl, rfl, ?_, ?_, ?_, ?_⟩
  · intro s
    simp [replaceForbidden]
  · intro s i h h'
    simp [replaceForbidden, List.get_eq_getElem]
  · intro s hs h
    simp [sanitize_filename, hs, h]
  · intro s hs h
    simp [sanitize_filename, hs, h]

/-- C7 witness: both strip branches at concrete inputs. -/
theorem build_image_url_spec_witness :
    build_image_url "b/" (some " /x ") = some ("b/" ++ String.mk ['x']) ∧
    build_image_url "b/" (some " x ") = some ("b/" ++ pyStrip " x ") :=
  ⟨build_image_url_spec.2.2.2.2.1 "b/" " /x " ['x'] (by decide) (by decide),
   build_image_url_spec.2.2.2.2.2 "b/" " x " (by decide) (by decide)⟩

/-- C8 witness: length preservation, the non-empty trim branch, and the
whitespace-collapses-to-unknown branch, at concrete inputs. -/
theorem sanitize_filename_spec_witness :
    (replaceForbidden "a*b").data.length = ("a*b" : String).data.length ∧
    sanitize_filename (some " * ") = pyStrip (replaceForbidden " * ") ∧
    sanitize_filename (some "  ") = "unknown" :=
  ⟨sanitize_filename_spec.2.2.1 "a*b",
   sanitize_filename_spec.2.2.2.2.2 " * " (by decide) (by decide),
   sanitize_filename_spec.2.2.2.2.1 "  " (by decide) (by decide)⟩

/-- C9: a whitespace-only image path is not rejected by `build_image_url`
(the emptiness test runs before the strip), so it resolves to the bare base
URL; with the configured base URL non-empty, `process_single_image` then
goes on to request that URL over HTTP instead of failing the row without a
network call (only in the degenerate empty-base configuration does the
resulting empty URL fall to the falsy `if not image_url` guard, failing the
row with no fetch). -/
theorem build_image_url_whitespace (base ws : String) (hne : ws ≠ "")
    (hws : pyStrip ws = "") :
    build_image_url base (some ws) = some base ∧
    (¬ base = "" →
      ∀ (download : String → Option String) (saveOk : Bool)
        (randoms : List Nat) (disk : List String) (ts : Nat)
        (idv nm : String),
        (process_single_image base download saveOk randoms disk ts
          ⟨idv, nm, some ws⟩).fetchedUrl = some base) ∧
    (∀ (download : String → Option String) (saveOk : Bool)
        (randoms : List Nat) (disk : List String) (ts : Nat)
        (idv nm : String),
        (process_single_image "" download saveOk randoms disk ts
          ⟨idv, nm, some ws⟩).fetchedUrl = none) := by
  have hmain : ∀ b : String, build_image_url b (some ws) = some b := by
    intro b
    simp only [build_image_url, if_neg hne]
    rw [hws]
    show some (b ++ "") = some b
    rw [str_append_empty]
  refine ⟨hmain base, ?_, ?_⟩
  · intro hbase download saveOk randoms disk ts idv nm
    simp only [process_single_image, hmain base]
    rw [if_neg hbase]
    rcases download base with _ | data
    · rfl
    · by_cases hd : data = ""
      · simp [hd]
      · simp only [if_neg hd]
        by_cases hs : saveOk = true <;> simp [hs]
  · intro download saveOk randoms disk ts idv nm
    simp only [process_single_image, hmain ""]
    rfl

/-- C9 witness: the concrete whitespace-only path `"   "` with the concrete
base `"https://cdn.x/"`: the resolver yields the bare base URL and the row
goes on to fetch exactly that URL. -/
theorem build_image_url_whitespace_witness :
    build_image_url "https://cdn.x/" (some "   ") = some "https://cdn.x/" ∧
    (process_single_image "https://cdn.x/" (fun _ => some "bytes") true
        [1000] [] 0 ⟨"id", "nm", some "   "⟩).fetchedUrl =
      some "https://cdn.x/" := by
  constructor
  · exact (build_image_url_whitespace "https://cdn.x/" "   " (by decide)
      (by decide)).1
  · exact (build_image_url_whitespace "https://cdn.x/" "   " (by decide)
      (by decide)).2.1 (by decide) (fun _ => some "bytes") true [1000] [] 0
      "id" "nm"

/-- C3 counterexample: with every one of the 100 random draws colliding
(draw 1000 each time, a legal value of `random.randint(1000, 9999)`) and the
fallback timestamp name also present on disk, `generate_filename` returns
`"a_b_7.jpg"`, a path that already exists. -/
theorem generate_filename_collision_counterexample :
    generate_filename "a" "b" "jpg" (List.replicate 100 1000)
        ["a_b_1000.jpg", "a_b_7.jpg"] 7 = "a_b_7.jpg" ∧
    "a_b_7.jpg" ∈ (["a_b_1000.jpg", "a_b_7.jpg"] : List String) ∧
    ((List.replicate 100 1000).all fun d => decide (1000 ≤ d ∧ d ≤ 9999)) =
      true := by
  refine ⟨by decide, by decide, by decide⟩

/-- C3 amended: the path returned by `generate_filename` does not exist on
disk whenever at least one of the 100 random-suffix candidates is free;
when all 100 candidates collide, the Unix-epoch-seconds fallback name is
returned without any existence check (and may itself exist on disk). -/
theorem generate_filename_spec (fr_id fr_nm extension : String)
    (randoms : List Nat) (disk : List String) (ts : Nat) :
    ((∃ d ∈ randoms.take 100,
        candidate_name (sanitize_filename (some fr_id))
          (sanitize_filename (some fr_nm)) d extension ∉ disk) →
      generate_filename fr_id fr_nm extension randoms disk ts ∉ disk) ∧
    ((∀ d ∈ randoms.take 100,
        candidate_name (sanitize_filename (some fr_id))
          (sanitize_filename (some fr_nm)) d extension ∈ disk) →
      generate_filename fr_id fr_nm extension randoms disk ts =
        candidate_name (sanitize_filename (some fr_id))
          (sanitize_filename (some fr_nm)) ts extension) := by
  constructor
  · intro hfree
    simp only [generate_filename]
    rcases hloop : generate_filename_loop (sanitize_filename (some fr_id))
        (sanitize_filename (some fr_nm)) extension disk (randoms.take 100)
      with _ | f
    · rw [generate_filename_loop_eq_none] at hloop
      obtain ⟨d, hd, hfree⟩ := hfree
      exact absurd (hloop d hd) hfree
    · exact generate_filename_loop_some_not_mem _ _ _ _ _ _ hloop
  · intro hall
    simp only [generate_filename]
    rcases hloop : generate_filename_loop (sanitize_filename (some fr_id))
        (sanitize_filename (some fr_nm)) extension disk (randoms.take 100)
      with _ | f
    · rfl
    · have := generate_filename_loop_some_not_mem _ _ _ _ _ _ hloop
      have hmem : f ∈ disk := by
        have hnone : generate_filename_loop (sanitize_filename (some fr_id))
            (sanitize_filename (some fr_nm)) extension disk
            (randoms.take 100) = none :=
          (generate_filename_loop_eq_none _ _ _ _ _).mpr hall
        rw [hloop] at hnone
        cases hnone
      exact absurd hmem this

/-- C3 amended, witness: a free candidate on the first draw, and a full
collision run falling back to the timestamp name. -/
theorem generate_filename_spec_witness :
    generate_filename "a" "b" "jpg" [1000] ([] : List String) 0 ∉
      ([] : List String) ∧
    generate_filename "x" "y" "jpg" (List.replicate 100 1000)
        ["x_y_1000.jpg"] 5 = "x_y_5.jpg" := by
  constructor
  · exact (generate_filename_spec "a" "b" "jpg" [1000] [] 0).1
      ⟨1000, by decide, by decide⟩
  · exact (generate_filename_spec "x" "y" "jpg" (List.replicate 100 1000)
      ["x_y_1000.jpg"] 5).2 (by decide)

theorem process_row_total (s : RunStats) (id : String) (o : RowOutcome) :
    (process_row s id o).total = s.total := by
  cases o <;> rfl

theorem process_row_sum (s : RunStats) (id : String) (o : RowOutcome) :
    (process_row s id o).success + (process_row s id o).failed =
      s.success + s.failed + 1 := by
  cases o <;> simp [process_row] <;> omega

theorem process_batch_rows_total (rs : List (String × RowOutcome)) :
    ∀ s, (process_batch_rows s rs).total = s.total := by
  induction rs with
  | nil => intro s; rfl
  | cons r rs ih =>
    intro s
    show (process_batch_rows (process_row s r.1 r.2) rs).total = s.total
    rw [ih, process_row_total]

theorem process_batch_rows_sum (rs : List (String × RowOutcome)) :
    ∀ s, (process_batch_rows s rs).success + (process_batch_rows s rs).failed =
      s.success + s.failed + rs.length := by
  induction rs with
  | nil => intro s; simp [process_batch_rows]
  | cons r rs ih =>
    intro s
    have h1 : process_batch_rows s (r :: rs) =
        process_batch_rows (process_row s r.1 r.2) rs := rfl
    rw [h1, ih]
    have h2 := process_row_sum s r.1 r.2
    simp only [List.length_cons]
    omega

theorem process_batch_rows_success (rs : List (String × RowOutcome)) :
    ∀ s, (process_batch_rows s rs).success =
      s.success +
        (rs.filter fun r => decide (r.2 = RowOutcome.success)).length := by
  induction rs with
  | nil => intro s; simp [process_batch_rows]
  | cons r rs ih =>
    intro s
    have h1 : process_batch_rows s (r :: rs) =
        process_batch_rows (process_row s r.1 r.2) rs := rfl
    rw [h1, ih]
    rcases r with ⟨id, o⟩
    cases o <;> simp [process_row, List.filter_cons] <;> omega

theorem process_batch_rows_failed (rs : List (String × RowOutcome)) :
    ∀ s, (process_batch_rows s rs).failed =
      s.failed +
        (rs.filter fun r => decide (¬ r.2 = RowOutcome.success)).length := by
  induction rs with
  | nil => intro s; simp [process_batch_rows]
  | cons r rs ih =>
    intro s
    have h1 : process_batch_rows s (r :: rs) =
        process_batch_rows (process_row s r.1 r.2) rs := rfl
    rw [h1, ih]
    rcases r with ⟨id, o⟩
    cases o <;> simp [process_row, List.filter_cons] <;> omega

theorem process_batch_rows_failed_ids (rs : List (String × RowOutcome)) :
    ∀ s, (process_batch_rows s rs).failed_ids =
      s.failed_ids ++
        ((rs.filter fun r => decide (¬ r.2 = RowOutcome.success)).map
          Prod.fst) := by
  induction rs with
  | nil => intro s; simp [process_batch_rows]
  | cons r rs ih =>
    intro s
    have h1 : process_batch_rows s (r :: rs) =
        process_batch_rows (process_row s r.1 r.2) rs := rfl
    rw [h1, ih]
    rcases r with ⟨id, o⟩
    cases o <;> simp [process_row, List.filter_cons]

/-- C4: inside a batch, each fetched row is accounted exactly once — a True
return adds one success, a False return or a caught exception adds one
failure and appends the row id (in row order); processing never drops the
remaining rows, the batch function is total, and every exception row gets
its error log line with the row identifier. -/
theorem process_batch_error_isolation (db : DbModel) (bsz : Nat)
    (s : RunStats) (b : Nat) :
    (process_batch db bsz s b).1.success =
      s.success +
        ((fetch_franchisee_data db ((b - 1) * bsz) bsz).filter fun r =>
          decide (r.2 = RowOutcome.success)).length ∧
    (process_batch db bsz s b).1.failed =
      s.failed +
        ((fetch_franchisee_data db ((b - 1) * bsz) bsz).filter fun r =>
          decide (¬ r.2 = RowOutcome.success)).length ∧
    (process_batch db bsz s b).1.failed_ids =
      s.failed_ids ++
        (((fetch_franchisee_data db ((b - 1) * bsz) bsz).filter fun r =>
          decide (¬ r.2 = RowOutcome.success)).map Prod.fst) ∧
    (process_batch db bsz s b).1.total = s.total ∧
    (∀ r ∈ fetch_franchisee_data db ((b - 1) * bsz) bsz,
      r.2 = RowOutcome.exc →
        Event.rowError r.1 ∈ (process_batch db bsz s b).2) := by
  have h1 : (process_batch db bsz s b).1 =
      process_batch_rows s (fetch_franchisee_data db ((b - 1) * bsz) bsz) :=
    rfl
  refine ⟨?_, ?_, ?_, ?_, ?_⟩
  · rw [h1, process_batch_rows_success]
  · rw [h1, process_batch_rows_failed]
  · rw [h1, process_batch_rows_failed_ids]
  · rw [h1, process_batch_rows_total]
  · intro r hr hexc
    show Event.rowError r.1 ∈ _ ++ _ ++ _
    refine List.mem_append.mpr (Or.inl (List.mem_append.mpr (Or.inr ?_)))
    exact List.mem_filterMap.mpr ⟨r, hr, by simp [hexc]⟩

/-- C4 witness: a concrete batch whose first row raises. -/
theorem process_batch_error_isolation_witness :
    Event.rowError "r1" ∈
      (process_batch
        ⟨[("r1", RowOutcome.exc), ("r2", RowOutcome.success)], false,
          fun _ => false⟩
        2 (initStats 2) 1).2 ∧
    (process_batch
        ⟨[("r1", RowOutcome.exc), ("r2", RowOutcome.success)], false,
          fun _ => false⟩
        2 (initStats 2) 1).1 =
      { total := 2, success := 1, failed := 1, failed_ids := ["r1"] } := by
  constructor
  · exact (process_batch_error_isolation
      ⟨[("r1", RowOutcome.exc), ("r2", RowOutcome.success)], false,
        fun _ => false⟩ 2 (initStats 2) 1).2.2.2.2
      ("r1", RowOutcome.exc) (by decide) rfl
  · decide

theorem process_rows_trace_bound (rs : List (String × RowOutcome)) :
    ∀ s st, st ∈ process_rows_trace s rs →
      st.total = s.total ∧
        st.success + st.failed ≤ s.success + s.failed + rs.length := by
  induction rs with
  | nil => intro s st h; simp [process_rows_trace] at h
  | cons r rs ih =>
    intro s st h
    simp only [process_rows_trace, List.mem_cons] at h
    have h2 := process_row_sum s r.1 r.2
    have h3 := process_row_total s r.1 r.2
    simp only [List.length_cons]
    rcases h with h | h
    · subst h
      exact ⟨h3, by omega⟩
    · have h4 := ih (process_row s r.1 r.2) st h
      exact ⟨by rw [h4.1, h3], by omega⟩

theorem fetch_len_le (db : DbModel) (offset limit : Nat) :
    (fetch_franchisee_data db offset limit).length ≤
      ((db.rows.drop offset).take limit).length := by
  unfold fetch_franchisee_data
  split
  · simp
  · exact Nat.le_refl _

theorem take_mul_succ {α : Type} (l : List α) (bsz k : Nat) :
    (l.take (k * bsz)).length + ((l.drop (k * bsz)).take bsz).length =
      (l.take ((k + 1) * bsz)).length := by
  rw [Nat.succ_mul, List.take_add, List.length_append]

theorem batches_trace_bound (db : DbModel) (bsz : Nat) (intr : Interrupt) :
    ∀ (m k : Nat) (s : RunStats),
      s.total = db.rows.length →
      s.success + s.failed ≤ (db.rows.take (k * bsz)).length →
      ∀ st ∈ batches_trace db bsz intr (List.range' (k + 1) m) s,
        st.total = db.rows.length ∧
          st.success + st.failed ≤ db.rows.length := by
  intro m
  induction m with
  | zero => intro k s _ _ st h; simp [batches_trace] at h
  | succ m ih =>
    intro k s htot hsum st hmem
    rw [List.range'_succ] at hmem
    simp only [batches_trace] at hmem
    split at hmem
    · simp at hmem
    · rw [List.mem_append] at hmem
      have hlen :
          (fetch_franchisee_data db ((k + 1 - 1) * bsz) bsz).length ≤
            ((db.rows.drop (k * bsz)).take bsz).length :=
        fetch_len_le db ((k + 1 - 1) * bsz) bsz
      have hslice := take_mul_succ db.rows bsz k
      have htakelen : (db.rows.take ((k + 1) * bsz)).length ≤
          db.rows.length := by
        rw [List.length_take]
        omega
      rcases hmem with h | h
      · have hb := process_rows_trace_bound _ s st h
        exact ⟨by rw [hb.1, htot], by omega⟩
      · have hsum' := process_batch_rows_sum
          (fetch_franchisee_data db ((k + 1 - 1) * bsz) bsz) s
        have htot' := process_batch_rows_total
          (fetch_franchisee_data db ((k + 1 - 1) * bsz) bsz) s
        exact ih (k + 1) _ (by rw [htot', htot]) (by omega) st h

theorem run_batches_total (db : DbModel) (bsz : Nat) (intr : Interrupt) :
    ∀ (bs : List Nat) (s : RunStats),
      (run_batches db bsz intr bs s).1.total = s.total := by
  intro bs
  induction bs with
  | nil => intro s; rfl
  | cons b rest ih =>
    intro s
    simp only [run_batches]
    split
    · rfl
    · rw [ih]
      exact process_batch_rows_total _ s

theorem run_batches_fst_cons_noIntr (db : DbModel) (bsz b : Nat)
    (rest : List Nat) (s : RunStats) :
    (run_batches db bsz Interrupt.noIntr (b :: rest) s).1 =
      (run_batches db bsz Interrupt.noIntr rest
        (process_batch db bsz s b).1).1 := rfl

theorem run_batches_sum_noIntr (db : DbModel) (bsz : Nat) :
    ∀ (bs : List Nat) (s : RunStats),
      (run_batches db bsz Interrupt.noIntr bs s).1.success +
          (run_batches db bsz Interrupt.noIntr bs s).1.failed =
        s.success + s.failed +
          (bs.map fun b =>
            (fetch_franchisee_data db ((b - 1) * bsz) bsz).length).sum := by
  intro bs
  induction bs with
  | nil => intro s; simp [run_batches]
  | cons b rest ih =>
    intro s
    rw [run_batches_fst_cons_noIntr, List.map_cons, List.sum_cons]
    have hp : (process_batch db bsz s b).1 =
        process_batch_rows s (fetch_franchisee_data db ((b - 1) * bsz) bsz) :=
      rfl
    rw [hp, ih]
    have := process_batch_rows_sum
      (fetch_franchisee_data db ((b - 1) * bsz) bsz) s
    omega

theorem run_batches_cause_noIntr (db : DbModel) (bsz : Nat) :
    ∀ (bs : List Nat) (s : RunStats),
      (run_batches db bsz Interrupt.noIntr bs s).2.2 =
        StopCause.completed := by
  intro bs
  induction bs with
  | nil => intro s; rfl
  | cons b rest ih =>
    intro s
    simp only [run_batches, Interrupt.firesAt]
    exact ih _

theorem take_len_sum {α : Type} (l : List α) (bsz : Nat) :
    ∀ m k,
      (l.take (k * bsz)).length +
          ((List.range' (k + 1) m).map fun b =>
            ((l.drop ((b - 1) * bsz)).take bsz).length).sum =
        (l.take ((k + m) * bsz)).length := by
  intro m
  induction m with
  | zero => intro k; simp
  | succ m ih =>
    intro k
    rw [List.range'_succ]
    simp only [List.map_cons, List.sum_cons]
    have h1 := take_mul_succ l bsz k
    have h2 := ih (k + 1)
    rw [show k + (m + 1) = k + 1 + m from by omega]
    simp only [Nat.add_sub_cancel] at h2 ⊢
    omega

theorem le_total_batches_mul (n bsz : Nat) (h : 0 < bsz) :
    n ≤ total_batches n bsz * bsz := by
  rcases n with _ | m
  · simp
  · unfold total_batches
    rw [show m + 1 + bsz - 1 = m + bsz from by omega, Nat.add_div_right m h]
    have h2 := Nat.div_add_mod m bsz
    have h3 : m % bsz < bsz := Nat.mod_lt m h
    have h4 : (m / bsz + 1) * bsz = bsz * (m / bsz) + bsz := by ring
    omega

theorem countFails_false_of_cnt_ne_zero (db : DbModel)
    (hcnt : (get_total_count db).1 ≠ 0) : db.countFails = false := by
  rcases h : db.countFails
  · rfl
  · exact absurd (by simp [get_total_count, h]) hcnt

theorem cnt_eq_length (db : DbModel) (hcf : db.countFails = false) :
    (get_total_count db).1 = db.rows.length := by
  simp [get_total_count, hcf]

theorem run_fst (env : RunEnv) (hconn : env.connectOk = true)
    (hcnt : (get_total_count env.db).1 ≠ 0) :
    (run env).1 =
      (run_batches env.db env.batch_size env.intr
        (List.range' 1
          (total_batches (get_total_count env.db).1 env.batch_size))
        (initStats (get_total_count env.db).1)).1 := by
  simp only [run]
  rw [if_neg (by simp [hconn]), if_neg hcnt]

theorem run_fst0 (env : RunEnv) (hconn : env.connectOk = true)
    (hcnt : (get_total_count env.db).1 = 0) :
    (run env).1 = initStats 0 := by
  simp only [run]
  rw [if_neg (by simp [hconn]), if_pos hcnt, hcnt]

/-- C1 amended: `success + failed ≤ total` holds at every point of every
run; `success + failed = total` once all batches complete — provided
additionally that every page fetch succeeded (a failing page fetch is
treated as an empty page, the run still completes all batches, and
`success + failed` then falls short of `total`). -/
theorem run_stats_invariant (env : RunEnv) :
    (∀ st ∈ run_trace env, st.success + st.failed ≤ st.total) ∧
    (env.connectOk = true → env.db.countFails = false →
      (∀ off, env.db.fetchFails off = false) →
      env.intr = Interrupt.noIntr → 0 < env.batch_size →
      (run env).1.success + (run env).1.failed = (run env).1.total) := by
  constructor
  · intro st hmem
    simp only [run_trace] at hmem
    split at hmem
    · simp at hmem
      simp [hmem, initStats]
    · split at hmem
      · simp at hmem
        simp [hmem, initStats]
      · next hcnt =>
        simp only [List.mem_cons] at hmem
        have hcf := countFails_false_of_cnt_ne_zero env.db hcnt
        have hc2 := cnt_eq_length env.db hcf
        rcases hmem with h | h
        · simp [h, initStats]
        · have hb := batches_trace_bound env.db env.batch_size env.intr
            (total_batches (get_total_count env.db).1 env.batch_size) 0
            (initStats (get_total_count env.db).1)
            (by simp [initStats, hc2])
            (by simp [initStats])
            st (by simpa using h)
          omega
  · intro hconn hcf hff hintr hbsz
    have hc2 := cnt_eq_length env.db hcf
    by_cases hcnt : (get_total_count env.db).1 = 0
    · rw [run_fst0 env hconn hcnt]
      simp [initStats]
    · rw [run_fst env hconn hcnt, hintr, run_batches_sum_noIntr,
        run_batches_total]
      simp only [fetch_franchisee_data, hff, Bool.false_eq_true, if_false,
        initStats]
      have hsum := take_len_sum env.db.rows env.batch_size
        (total_batches (get_total_count env.db).1 env.batch_size) 0
      simp only [Nat.zero_add, Nat.zero_mul, List.take_zero,
        List.length_nil] at hsum
      have hle := le_total_batches_mul env.db.rows.length env.batch_size hbsz
      rw [List.length_take] at hsum
      rw [hc2] at hsum ⊢
      omega

/-- C1 counterexample: one active row, batch size 1, the single page fetch
raises (logged, treated as an empty page); the run completes every batch
and prints the summary, yet `success + failed = 0 ≠ 1 = total`. -/
theorem run_stats_total_counterexample :
    ((run ⟨true, false, ⟨[("r1", RowOutcome.success)], false, fun _ => true⟩,
          1, Interrupt.noIntr⟩).1.success +
        (run ⟨true, false, ⟨[("r1", RowOutcome.success)], false, fun _ => true⟩,
          1, Interrupt.noIntr⟩).1.failed ≠
      (run ⟨true, false, ⟨[("r1", RowOutcome.success)], false, fun _ => true⟩,
        1, Interrupt.noIntr⟩).1.total) ∧
    Event.summary 1 0 0 ∈
      (run ⟨true, false, ⟨[("r1", RowOutcome.success)], false, fun _ => true⟩,
        1, Interrupt.noIntr⟩).2 := by
  exact ⟨by decide, by decide⟩

/-- C1 amended, witness: the invariant at a concrete trace point, and the
completion equality on a concrete fully-successful run. -/
theorem run_stats_invariant_witness :
    ((initStats 1).success + (initStats 1).failed ≤ (initStats 1).total) ∧
    ((run ⟨true, false, ⟨[("r1", RowOutcome.success)], false, fun _ => false⟩,
          1, Interrupt.noIntr⟩).1.success +
        (run ⟨true, false, ⟨[("r1", RowOutcome.success)], false,
          fun _ => false⟩, 1, Interrupt.noIntr⟩).1.failed =
      (run ⟨true, false, ⟨[("r1", RowOutcome.success)], false, fun _ => false⟩,
        1, Interrupt.noIntr⟩).1.total) := by
  constructor
  · exact (run_stats_invariant
      ⟨true, false, ⟨[("r1", RowOutcome.success)], false, fun _ => false⟩, 1,
        Interrupt.noIntr⟩).1 (initStats 1) (by decide)
  · exact (run_stats_invariant
      ⟨true, false, ⟨[("r1", RowOutcome.success)], false, fun _ => false⟩, 1,
        Interrupt.noIntr⟩).2 rfl rfl (fun _ => rfl) rfl (by decide)

/-- C2: on a run that completes all batches, `success + failed` equals the
number of rows actually returned by the page-fetch calls across all batches
(a failing page fetch contributes zero rows and its lost rows are counted
in neither tally). -/
theorem run_counts_fetched (env : RunEnv) (hconn : env.connectOk = true)
    (hintr : env.intr = Interrupt.noIntr) (hbsz : 0 < env.batch_size) :
    (run env).1.success + (run env).1.failed =
      ((List.range' 1
          (total_batches (get_total_count env.db).1 env.batch_size)).map
        fun b =>
          (fetch_franchisee_data env.db ((b - 1) * env.batch_size)
            env.batch_size).length).sum := by
  by_cases hcnt : (get_total_count env.db).1 = 0
  · rw [run_fst0 env hconn hcnt, hcnt]
    have h0 : total_batches 0 env.batch_size = 0 := by
      unfold total_batches
      exact Nat.div_eq_of_lt (by omega)
    rw [h0]
    simp [initStats]
  · rw [run_fst env hconn hcnt, hintr, run_batches_sum_noIntr]
    simp [initStats]

/-- C2 witness: three rows fetched in pages of two, the second page fetch
failing; both sides evaluate to 2. -/
theorem run_counts_fetched_witness :
    ((run ⟨true, false,
          ⟨[("r1", RowOutcome.success), ("r2", RowOutcome.failure),
            ("r3", RowOutcome.exc)], false, fun off => decide (off = 2)⟩, 2,
          Interrupt.noIntr⟩).1.success +
        (run ⟨true, false,
          ⟨[("r1", RowOutcome.success), ("r2", RowOutcome.failure),
            ("r3", RowOutcome.exc)], false, fun off => decide (off = 2)⟩, 2,
          Interrupt.noIntr⟩).1.failed =
      ((List.range' 1
          (total_batches
            (get_total_count
              ⟨[("r1", RowOutcome.success), ("r2", RowOutcome.failure),
                ("r3", RowOutcome.exc)], false, fun off => decide (off = 2)⟩).1
            2)).map
        fun b =>
          (fetch_franchisee_data
            ⟨[("r1", RowOutcome.success), ("r2", RowOutcome.failure),
              ("r3", RowOutcome.exc)], false, fun off => decide (off = 2)⟩
            ((b - 1) * 2) 2).length).sum) ∧
    (run ⟨true, false,
        ⟨[("r1", RowOutcome.success), ("r2", RowOutcome.failure),
          ("r3", RowOutcome.exc)], false, fun off => decide (off = 2)⟩, 2,
        Interrupt.noIntr⟩).1.success +
      (run ⟨true, false,
        ⟨[("r1", RowOutcome.success), ("r2", RowOutcome.failure),
          ("r3", RowOutcome.exc)], false, fun off => decide (off = 2)⟩, 2,
        Interrupt.noIntr⟩).1.failed = 2 := by
  constructor
  · exact run_counts_fetched
      ⟨true, false,
        ⟨[("r1", RowOutcome.success), ("r2", RowOutcome.failure),
          ("r3", RowOutcome.exc)], false, fun off => decide (off = 2)⟩, 2,
        Interrupt.noIntr⟩ rfl rfl (by decide)
  · decide

/-- C5: when the count query raises, the error is logged and 0 is returned;
the run then reports `total = 0`, logs the no-data warning, issues no
page-fetch query, and — apart from the extra error log line — its stats and
log trace coincide with those of a run over a genuinely empty result set. -/
theorem count_error_behaves_empty (rows : List (String × RowOutcome))
    (ff : Nat → Bool) (tun : Bool) (bsz : Nat) (intr : Interrupt) :
    (run ⟨true, tun, ⟨rows, true, ff⟩, bsz, intr⟩).1 = initStats 0 ∧
    Event.countError ∈ (run ⟨true, tun, ⟨rows, true, ff⟩, bsz, intr⟩).2 ∧
    Event.noData ∈ (run ⟨true, tun, ⟨rows, true, ff⟩, bsz, intr⟩).2 ∧
    (∀ off,
      Event.fetchPage off ∉ (run ⟨true, tun, ⟨rows, true, ff⟩, bsz, intr⟩).2) ∧
    (run ⟨true, tun, ⟨rows, true, ff⟩, bsz, intr⟩).1 =
      (run ⟨true, tun, ⟨[], false, ff⟩, bsz, intr⟩).1 ∧
    (run ⟨true, tun, ⟨rows, true, ff⟩, bsz, intr⟩).2.filter
        (fun e => decide (¬ e = Event.countError)) =
      (run ⟨true, tun, ⟨[], false, ff⟩, bsz, intr⟩).2 := by
  have hF : run ⟨true, tun, ⟨rows, true, ff⟩, bsz, intr⟩ =
      (initStats 0,
        Event.connectOk :: Event.countError :: Event.logTotal 0 ::
          Event.noData :: close_db_events tun) := rfl
  have hE : run ⟨true, tun, ⟨[], false, ff⟩, bsz, intr⟩ =
      (initStats 0,
        Event.connectOk :: Event.logTotal 0 :: Event.noData ::
          close_db_events tun) := rfl
  rw [hF, hE]
  refine ⟨rfl, by simp, by simp, ?_, rfl, ?_⟩
  · intro off
    cases tun <;> simp [close_db_events]
  · cases tun <;> rfl

/-- C5 witness: a concrete failing-count run next to the empty run. -/
theorem count_error_behaves_empty_witness :
    (run ⟨true, false, ⟨[("r1", RowOutcome.success)], true, fun _ => false⟩, 5,
        Interrupt.noIntr⟩).1 = initStats 0 ∧
    Event.fetchPage 0 ∉
      (run ⟨true, false, ⟨[("r1", RowOutcome.success)], true, fun _ => false⟩,
        5, Interrupt.noIntr⟩).2 := by
  constructor
  · exact (count_error_behaves_empty [("r1", RowOutcome.success)]
      (fun _ => false) false 5 Interrupt.noIntr).1
  · exact (count_error_behaves_empty [("r1", RowOutcome.success)]
      (fun _ => false) false 5 Interrupt.noIntr).2.2.2.1 0

theorem run_batches_events_shape (db : DbModel) (bsz : Nat)
    (intr : Interrupt) :
    ∀ (bs : List Nat) (s : RunStats) (e : Event),
      e ∈ (run_batches db bsz intr bs s).2.1 →
        (∃ o, e = Event.fetchPage o) ∨ (∃ o, e = Event.fetchError o) ∨
          (∃ i, e = Event.rowError i) ∨ (∃ n, e = Event.batchDone n) := by
  intro bs
  induction bs with
  | nil => intro s e h; simp [run_batches] at h
  | cons b rest ih =>
    intro s e h
    simp only [run_batches] at h
    split at h
    · simp at h
    · rw [List.mem_append] at h
      rcases h with h | h
      · simp only [process_batch, List.mem_append] at h
        rcases h with (h | h) | h
        · split at h
          all_goals simp only [List.mem_cons, List.not_mem_nil, or_false] at h
          · rcases h with h | h
            · exact Or.inl ⟨_, h⟩
            · exact Or.inr (Or.inl ⟨_, h⟩)
          · exact Or.inl ⟨_, h⟩
        · rcases List.mem_filterMap.mp h with ⟨r, _, hr⟩
          split at hr
          · cases hr
            right; right; left
            exact ⟨r.1, rfl⟩
          · cases hr
        · split at h
          · simp at h
          · simp only [List.mem_singleton] at h
            right; right; right
            exact ⟨b, h⟩
      · exact ih _ e h

theorem not_mem_cev (db : DbModel) (e : Event)
    (he : ¬ e = Event.countError) : e ∉ (get_total_count db).2 := by
  unfold get_total_count
  split
  · simp [he]
  · simp

theorem not_mem_run_batches_events (db : DbModel) (bsz : Nat)
    (intr : Interrupt) (bs : List Nat) (s : RunStats) (e : Event)
    (h1 : ∀ o, ¬ e = Event.fetchPage o) (h2 : ∀ o, ¬ e = Event.fetchError o)
    (h3 : ∀ i, ¬ e = Event.rowError i) (h4 : ∀ n, ¬ e = Event.batchDone n) :
    e ∉ (run_batches db bsz intr bs s).2.1 := by
  intro hm
  rcases run_batches_events_shape db bsz intr bs s e hm with
    ⟨o, ho⟩ | ⟨o, ho⟩ | ⟨i, ho⟩ | ⟨n, ho⟩
  exacts [h1 o ho, h2 o ho, h3 i ho, h4 n ho]

theorem count_connClosed_close (tun : Bool) :
    (close_db_events tun).count Event.connClosed = 1 := by
  cases tun <;> decide

theorem count_tunnelClosed_close_true :
    (close_db_events true).count Event.tunnelClosed = 1 := by decide

theorem tunnelClosed_not_mem_close_false :
    Event.tunnelClosed ∉ close_db_events false := by decide

theorem summary_not_mem_close (tun : Bool) (t sc f : Nat) :
    Event.summary t sc f ∉ close_db_events tun := by
  cases tun <;> simp [close_db_events]

theorem interrupted_not_mem_close (tun : Bool) :
    Event.interrupted ∉ close_db_events tun := by
  cases tun <;> decide

theorem unexpected_not_mem_close (tun : Bool) :
    Event.unexpectedError ∉ close_db_events tun := by
  cases tun <;> decide

/-- C6: whenever the connection was established, every exit path of `run` —
normal completion, `KeyboardInterrupt`, unexpected exception, and the
zero-total early return — releases the connection exactly once (and the
tunnel exactly once when one is open) before returning; the final stats
summary appears only when no abnormal exit occurred, and it does appear on
a fully normal completion with data. -/
theorem run_cleanup (env : RunEnv) (hconn : env.connectOk = true)
    (hbsz : 0 < env.batch_size) :
    (run env).2.count Event.connClosed = 1 ∧
    (env.useTunnel = true → (run env).2.count Event.tunnelClosed = 1) ∧
    (env.useTunnel = false → Event.tunnelClosed ∉ (run env).2) ∧
    ((Event.interrupted ∈ (run env).2 ∨
        Event.unexpectedError ∈ (run env).2) →
      ∀ t sc f, Event.summary t sc f ∉ (run env).2) ∧
    (env.intr = Interrupt.noIntr → (get_total_count env.db).1 ≠ 0 →
      Event.summary (run env).1.total (run env).1.success (run env).1.failed ∈
        (run env).2) := by
  by_cases hcnt : (get_total_count env.db).1 = 0
  · have h2 : (run env).2 =
        Event.connectOk :: (get_total_count env.db).2 ++
          [Event.logTotal (get_total_count env.db).1, Event.noData] ++
          close_db_events env.useTunnel := by
      simp only [run]
      rw [if_neg (by simp [hconn]), if_pos hcnt]
    have zc : Event.connClosed ∉ (get_total_count env.db).2 :=
      not_mem_cev env.db _ (by simp)
    have zt : Event.tunnelClosed ∉ (get_total_count env.db).2 :=
      not_mem_cev env.db _ (by simp)
    refine ⟨?_, ?_, ?_, ?_, ?_⟩
    · rw [h2]
      simp [List.count_cons, List.count_append,
        List.count_eq_zero.mpr zc, count_connClosed_close]
    · intro htun
      rw [h2, htun]
      simp [List.count_cons, List.count_append,
        List.count_eq_zero.mpr zt, count_tunnelClosed_close_true]
    · intro htun
      rw [h2, htun]
      simp [zt, tunnelClosed_not_mem_close_false]
    · intro _ t sc f
      rw [h2]
      simp [not_mem_cev env.db (Event.summary t sc f) (by simp),
        summary_not_mem_close]
    · intro _ hc
      exact absurd hcnt hc
  · set R := run_batches env.db env.batch_size env.intr
      (List.range' 1 (total_batches (get_total_count env.db).1 env.batch_size))
      (initStats (get_total_count env.db).1) with hR
    have h2 : (run env).2 =
        Event.connectOk :: (get_total_count env.db).2 ++
          [Event.logTotal (get_total_count env.db).1] ++ R.2.1 ++
          (match R.2.2 with
            | StopCause.completed =>
                [Event.summary R.1.total R.1.success R.1.failed]
            | StopCause.keyboard => [Event.interrupted]
            | StopCause.unexpected => [Event.unexpectedError]) ++
          close_db_events env.useTunnel := by
      rw [hR]
      simp only [run]
      rw [if_neg (by simp [hconn]), if_neg hcnt]
    have hfst : (run env).1 = R.1 := by
      rw [hR]
      exact run_fst env hconn hcnt
    have zc : Event.connClosed ∉ (get_total_count env.db).2 :=
      not_mem_cev env.db _ (by simp)
    have zt : Event.tunnelClosed ∉ (get_total_count env.db).2 :=
      not_mem_cev env.db _ (by simp)
    have zbc : Event.connClosed ∉ R.2.1 := by
      rw [hR]
      exact not_mem_run_batches_events _ _ _ _ _ _ (by simp) (by simp)
        (by simp) (by simp)
    have zbt : Event.tunnelClosed ∉ R.2.1 := by
      rw [hR]
      exact not_mem_run_batches_events _ _ _ _ _ _ (by simp) (by simp)
        (by simp) (by simp)
    have zbs : ∀ t sc f, Event.summary t sc f ∉ R.2.1 := by
      intro t sc f
      rw [hR]
      exact not_mem_run_batches_events _ _ _ _ _ _ (by simp) (by simp)
        (by simp) (by simp)
    have zbi : Event.interrupted ∉ R.2.1 := by
      rw [hR]
      exact not_mem_run_batches_events _ _ _ _ _ _ (by simp) (by simp)
        (by simp) (by simp)
    have zbu : Event.unexpectedError ∉ R.2.1 := by
      rw [hR]
      exact not_mem_run_batches_events _ _ _ _ _ _ (by simp) (by simp)
        (by simp) (by simp)
    rcases hcause : R.2.2 with _ | _ | _
    all_goals simp only [hcause] at h2
    · -- completed
      refine ⟨?_, ?_, ?_, ?_, ?_⟩
      · rw [h2]
        simp [List.count_cons, List.count_append,
          List.count_eq_zero.mpr zc, List.count_eq_zero.mpr zbc,
          count_connClosed_close]
      · intro htun
        rw [h2, htun]
        simp [List.count_cons, List.count_append,
          List.count_eq_zero.mpr zt, List.count_eq_zero.mpr zbt,
          count_tunnelClosed_close_true]
      · intro htun
        rw [h2, htun]
        simp [zt, zbt, tunnelClosed_not_mem_close_false]
      · intro habn
        exfalso
        rcases habn with h | h <;> rw [h2] at h <;>
          simp [zc, zt, zbi, zbu, interrupted_not_mem_close,
            unexpected_not_mem_close, not_mem_cev env.db Event.interrupted
              (by simp),
            not_mem_cev env.db Event.unexpectedError (by simp)] at h
      · intro _ _
        rw [h2, hfst]
        simp
    · -- keyboard interrupt
      refine ⟨?_, ?_, ?_, ?_, ?_⟩
      · rw [h2]
        simp [List.count_cons, List.count_append,
          List.count_eq_zero.mpr zc, List.count_eq_zero.mpr zbc,
          count_connClosed_close]
      · intro htun
        rw [h2, htun]
        simp [List.count_cons, List.count_append,
          List.count_eq_zero.mpr zt, List.count_eq_zero.mpr zbt,
          count_tunnelClosed_close_true]
      · intro htun
        rw [h2, htun]
        simp [zt, zbt, tunnelClosed_not_mem_close_false]
      · intro _ t sc f
        rw [h2]
        simp [zbs, summary_not_mem_close,
          not_mem_cev env.db (Event.summary t sc f) (by simp)]
      · intro hintr _
        exfalso
        have hcomp : R.2.2 = StopCause.completed := by
          rw [hR, hintr]
          exact run_batches_cause_noIntr _ _ _ _
        rw [hcause] at hcomp
        exact StopCause.noConfusion hcomp
    · -- unexpected exception
      refine ⟨?_, ?_, ?_, ?_, ?_⟩
      · rw [h2]
        simp [List.count_cons, List.count_append,
          List.count_eq_zero.mpr zc, List.count_eq_zero.mpr zbc,
          count_connClosed_close]
      · intro htun
        rw [h2, htun]
        simp [List.count_cons, List.count_append,
          List.count_eq_zero.mpr zt, List.count_eq_zero.mpr zbt,
          count_tunnelClosed_close_true]
      · intro htun
        rw [h2, htun]
        simp [zt, zbt, tunnelClosed_not_mem_close_false]
      · intro _ t sc f
        rw [h2]
        simp [zbs, summary_not_mem_close,
          not_mem_cev env.db (Event.summary t sc f) (by simp)]
      · intro hintr _
        exfalso
        have hcomp : R.2.2 = StopCause.completed := by
          rw [hR, hintr]
          exact run_batches_cause_noIntr _ _ _ _
        rw [hcause] at hcomp
        exact StopCause.noConfusion hcomp

/-- C6 witness: a run interrupted at the second batch still closes the
connection exactly once, and the normal run prints its summary. -/
theorem run_cleanup_witness :
    (run ⟨true, false,
        ⟨[("r1", RowOutcome.success), ("r2", RowOutcome.success)], false,
          fun _ => false⟩, 1, Interrupt.kbAt 2⟩).2.count Event.connClosed =
      1 ∧
    Event.summary
        (run ⟨true, false,
          ⟨[("r1", RowOutcome.success), ("r2", RowOutcome.success)], false,
            fun _ => false⟩, 1, Interrupt.noIntr⟩).1.total
        (run ⟨true, false,
          ⟨[("r1", RowOutcome.success), ("r2", RowOutcome.success)], false,
            fun _ => false⟩, 1, Interrupt.noIntr⟩).1.success
        (run ⟨true, false,
          ⟨[("r1", RowOutcome.success), ("r2", RowOutcome.success)], false,
            fun _ => false⟩, 1, Interrupt.noIntr⟩).1.failed ∈
      (run ⟨true, false,
        ⟨[("r1", RowOutcome.success), ("r2", RowOutcome.success)], false,
          fun _ => false⟩, 1, Interrupt.noIntr⟩).2 := by
  constructor
  · exact (run_cleanup ⟨true, false,
      ⟨[("r1", RowOutcome.success), ("r2", RowOutcome.success)], false,
        fun _ => false⟩, 1, Interrupt.kbAt 2⟩ rfl (by decide)).1
  · exact (run_cleanup ⟨true, false,
      ⟨[("r1", RowOutcome.success), ("r2", RowOutcome.success)], false,
        fun _ => false⟩, 1, Interrupt.noIntr⟩ rfl (by decide)).2.2.2.2 rfl
      (by decide)

/-- C10: for both archive formats, when the source directory exists and the
archive-writing block raises, the partially written output file is deleted
when it exists, the call returns `None`, and no archive file with the
output name remains in the destination directory. -/
theorem archive_failure_cleanup (sourceExists : Bool) (disk : List String)
    (output : String) (diskOnFailure : List String)
    (hsrc : sourceExists = true) :
    (create_zip sourceExists disk output false diskOnFailure).1 = none ∧
    output ∉ (create_zip sourceExists disk output false diskOnFailure).2 ∧
    (create_tar_gz sourceExists disk output false diskOnFailure).1 = none ∧
    output ∉
      (create_tar_gz sourceExists disk output false diskOnFailure).2 := by
  subst hsrc
  have hz : ∀ d : List String,
      output ∉ (if output ∈ d then
        d.filter (fun f => decide (¬ f = output)) else d) := by
    intro d
    by_cases hmem : output ∈ d
    · simp [hmem, List.mem_filter]
    · simp [hmem]
  exact ⟨rfl, hz diskOnFailure, rfl, hz diskOnFailure⟩

/-- C10 witness: a failing write with the partial archive present (and an
unrelated file in the destination directory, which is kept). -/
theorem archive_failure_cleanup_witness :
    (create_zip true ["keep.txt"] "images.zip" false
        ["images.zip", "keep.txt"]).1 = none ∧
    "images.zip" ∉
      (create_zip true ["keep.txt"] "images.zip" false
        ["images.zip", "keep.txt"]).2 ∧
    (create_zip true ["keep.txt"] "images.zip" false
        ["images.zip", "keep.txt"]).2 = ["keep.txt"] := by
  have h := archive_failure_cleanup true ["keep.txt"] "images.zip"
    ["images.zip", "keep.txt"] rfl
  exact ⟨h.1, h.2.1, by decide⟩

end ImgDl
